import Mathlib

/-!
Shallow embedding of the audio mastering core of the `aimastering` repository
(`backend/app/services/mastering_engine.py` and
`backend/app/services/audio_analyzer.py`).

Numeric convention: Python floats are modelled as real numbers with exact
arithmetic; `numpy` arrays are modelled as lists of reals.  A 1-D array is
`NpAudio.oneD`, a 2-D channels-first array is `NpAudio.twoD`.  Library calls
whose outputs the claims do not depend on (librosa STFT magnitudes) are
abstracted as function-valued inputs, noted at each definition.
-/

namespace AiMastering

open Real

/-- Python `int(x)` truncation toward zero on a real value. -/
noncomputable def pyint (x : ℝ) : ℤ := if 0 ≤ x then ⌊x⌋ else ⌈x⌉

/-- A numpy audio array: either a 1-D sample vector or a 2-D
channels-first array, as `mastering_engine.py` distinguishes via
`len(audio.shape)`. -/
inductive NpAudio
  | oneD (xs : List ℝ)
  | twoD (chans : List (List ℝ))

/-- Element-wise operation on an array (numpy broadcasting of a scalar map). -/
def NpAudio.map (f : ℝ → ℝ) : NpAudio → NpAudio
  | .oneD xs => .oneD (xs.map f)
  | .twoD cs => .twoD (cs.map (fun c => c.map f))

/-- The per-channel processing pattern
`if len(audio.shape) > 1: process each channel else: process audio`. -/
def perChannel (f : List ℝ → List ℝ) : NpAudio → NpAudio
  | .oneD xs => .oneD (f xs)
  | .twoD cs => .twoD (cs.map f)

/-- One parametric EQ band dictionary (`frequency`, `gain`, `q`, `type`). -/
structure EqBand where
  frequency : ℝ
  gain : ℝ
  q : ℝ
  eq_type : String

/-- `eq_settings` dictionary: a list of bands. -/
structure EqSettings where
  bands : List EqBand

/-- `compression_settings` dictionary. -/
structure CompressionSettings where
  threshold : ℝ
  ratio : ℝ
  attack : ℝ
  release : ℝ
  makeup_gain : ℝ
  target_dynamic_range : Option ℝ

/-- `saturation_settings` dictionary. -/
structure SaturationSettings where
  drive : ℝ
  saturation_type : String
  mix : ℝ

/-- `stereo_settings` dictionary (the code reads only `width`). -/
structure StereoSettings where
  width : ℝ

/-- `limiting_settings` dictionary. -/
structure LimitingSettings where
  ceiling : ℝ
  release : ℝ

/-- The settings dictionary passed to `apply_mastering_chain`; `none` models
an absent (or falsy) sub-dictionary, which bypasses that stage. -/
structure MasteringSettings where
  eq_settings : Option EqSettings
  compression_settings : Option CompressionSettings
  saturation_settings : Option SaturationSettings
  stereo_settings : Option StereoSettings
  limiting_settings : Option LimitingSettings

/-! ### Saturation (`MasteringEngine._tube_saturation`, `_tape_saturation`,
`_soft_clipper`, `apply_saturation`) -/

/-- `_tube_saturation` on one sample: `tanh(audio * drive * 0.7) * 0.95`. -/
noncomputable def tube_saturation (drive x : ℝ) : ℝ :=
  Real.tanh (x * drive * 0.7) * 0.95

/-- `_tape_saturation` on one sample: `driven / (1 + |driven|)`. -/
noncomputable def tape_saturation (drive x : ℝ) : ℝ :=
  (x * drive) / (1 + |x * drive|)

/-- `_soft_clipper` on one sample: `sign(driven) * (1 - exp(-|driven|))`. -/
noncomputable def soft_clipper (drive x : ℝ) : ℝ :=
  Real.sign (x * drive) * (1 - Real.exp (-|x * drive|))

/-- The wet signal of `apply_saturation`: dispatch on the `type` string,
with anything other than `tube` and `tape` falling to the soft clipper. -/
noncomputable def saturation_wet (kind : String) (drive x : ℝ) : ℝ :=
  if kind = "tube" then tube_saturation drive x
  else if kind = "tape" then tape_saturation drive x
  else soft_clipper drive x

/-- One sample of `apply_saturation`: `audio * (1 - mix) + saturated * mix`. -/
noncomputable def apply_saturation_sample (kind : String) (drive mix x : ℝ) : ℝ :=
  x * (1 - mix) + saturation_wet kind drive x * mix

/-- Body of `MasteringEngine.apply_saturation` (element-wise, no failure
path reachable in the model: every `type` string is handled). -/
noncomputable def apply_saturationE (audio : NpAudio) (s : SaturationSettings) :
    Except String NpAudio :=
  .ok (audio.map (apply_saturation_sample s.saturation_type s.drive s.mix))

/-- `MasteringEngine.apply_saturation` with its `try/except` that returns the
input on an internal exception. -/
noncomputable def apply_saturation (audio : NpAudio) (s : SaturationSettings) : NpAudio :=
  match apply_saturationE audio s with
  | .ok y => y
  | .error _ => audio

/-! ### Stereo processing (`MasteringEngine.apply_stereo_processing`) -/

/-- `MasteringEngine.apply_stereo_processing`: ensure two channels
(duplicating mono), then mid/side width scaling of the first two channels
when `width != 1.0`, then a final ensure-stereo step. -/
noncomputable def apply_stereo_processing (audio : NpAudio) (st : StereoSettings) : NpAudio :=
  let stereo : List (List ℝ) :=
    match audio with
    | .oneD xs => [xs, xs]
    | .twoD [c] => [c, c]
    | .twoD cs => cs
  let w := st.width
  let stereo2 : List (List ℝ) :=
    if w ≠ 1 then
      match stereo with
      | l :: r :: rest =>
          let mid := List.zipWith (fun a b => (a + b) / 2) l r
          let side := List.zipWith (fun a b => (a - b) / 2 * w) l r
          List.zipWith (· + ·) mid side :: List.zipWith (· - ·) mid side :: rest
      | other => other
    else stereo
  match stereo2 with
  | [c] => .twoD [c, c]
  | cs => .twoD cs

/-! ### Limiting (`MasteringEngine.apply_limiting`, `_apply_limiting_channel`) -/

/-- Initial per-sample gain of the limiter: ones, lowered to
`min(1, ceiling/|x|)` at samples whose magnitude exceeds the ceiling. -/
noncomputable def limiter_gain (ceiling_linear x : ℝ) : ℝ :=
  if |x| > ceiling_linear then min 1 (ceiling_linear / |x|) else 1

/-- The forward release-smoothing pass of `_apply_limiting_channel`,
starting after the first element: instant attack (keep a lower gain),
one-pole smoothing upward on release.  `prev` is the already smoothed
previous gain, exactly as the in-place loop reads it. -/
noncomputable def limiter_smooth (rc : ℝ) (prev : ℝ) : List ℝ → List ℝ
  | [] => []
  | g :: t =>
      if g < prev then g :: limiter_smooth rc g t
      else
        let e := prev * rc + g * (1 - rc)
        e :: limiter_smooth rc e t

/-- `MasteringEngine._apply_limiting_channel` on one channel. -/
noncomputable def apply_limiting_channel (sr : ℕ) (xs : List ℝ)
    (ceiling_linear release : ℝ) : List ℝ :=
  let gains := xs.map (limiter_gain ceiling_linear)
  let release_samples : ℤ := max 1 (pyint (release * sr))
  let rc : ℝ := 1 - 1 / (release_samples : ℝ)
  let smoothed :=
    match gains with
    | [] => []
    | g :: t => g :: limiter_smooth rc g t
  List.zipWith (· * ·) xs smoothed

/-- `MasteringEngine.apply_limiting`: convert the dB ceiling to linear and
limit each channel. -/
noncomputable def apply_limiting (sr : ℕ) (audio : NpAudio) (s : LimitingSettings) : NpAudio :=
  let ceiling_linear : ℝ := (10 : ℝ) ^ (s.ceiling / 20)
  perChannel (fun c => apply_limiting_channel sr c ceiling_linear s.release) audio

/-! ### Dynamic range (`_calculate_dynamic_range`,
`_optimize_compression_for_dr`) -/

/-- Peak-over-RMS dynamic range of one channel in dB. -/
noncomputable def dr_channel (xs : List ℝ) : ℝ :=
  let peak := ((xs.map (fun x => |x|)).foldl max 0)
  let rms := Real.sqrt ((xs.map (fun x => x ^ 2)).sum / xs.length)
  20 * Real.logb 10 (peak / (rms + 1 / 10 ^ 10))

/-- `MasteringEngine._calculate_dynamic_range`: per-channel maximum for 2-D
input; the `try/except` yields the 10.0 fallback when `np.max` of an empty
array (or `max` of an empty Python list) raises. -/
noncomputable def calculate_dynamic_range (audio : NpAudio) : ℝ :=
  match audio with
  | .oneD [] => 10
  | .oneD xs => dr_channel xs
  | .twoD cs =>
      if cs.isEmpty || cs.any (fun c => c.isEmpty) then 10
      else
        match cs.map dr_channel with
        | [] => 10
        | d :: ds => ds.foldl max d

/-- `MasteringEngine._optimize_compression_for_dr`. -/
noncomputable def optimize_compression_for_dr (current_dr target_dr threshold ratio : ℝ) :
    ℝ × ℝ :=
  let dr_difference := current_dr - target_dr
  if dr_difference > 2 then
    (threshold - min (dr_difference * 0.5) 6, min (ratio * (1 + dr_difference * 0.1)) 10)
  else if dr_difference < -2 then
    (threshold + min (|dr_difference| * 0.3) 4, max (ratio * (1 - |dr_difference| * 0.05)) 1.5)
  else
    (threshold, ratio)

/-! ### Compression (`MasteringEngine._apply_envelope`,
`_apply_compression_channel`, `apply_compression`) -/

/-- The in-place attack/release loop of `_apply_envelope` from index 1 on:
`prev` is the previously written envelope value. -/
noncomputable def envelope_loop (ac rc : ℝ) (prev : ℝ) : List ℝ → List ℝ
  | [] => []
  | g :: t =>
      let e := prev + (g - prev) * (if g > prev then ac else rc)
      e :: envelope_loop ac rc e t

/-- `MasteringEngine._apply_envelope`: the envelope starts as zeros and the
loop runs from index 1, so the first element stays 0 and the first signal
value is never read. -/
noncomputable def apply_envelope (sr : ℕ) (signal_db : List ℝ) (attack release : ℝ) :
    List ℝ :=
  let attack_samples : ℤ := max 1 (pyint (attack * sr))
  let release_samples : ℤ := max 1 (pyint (release * sr))
  let ac : ℝ := 1 - Real.exp (-1 / (attack_samples : ℝ))
  let rc : ℝ := 1 - Real.exp (-1 / (release_samples : ℝ))
  match signal_db with
  | [] => []
  | _ :: t => 0 :: envelope_loop ac rc 0 t

/-- `MasteringEngine._apply_compression_channel`. -/
noncomputable def apply_compression_channel (sr : ℕ) (xs : List ℝ)
    (threshold ratio attack release makeup_gain : ℝ) : List ℝ :=
  let audio_db := xs.map (fun x => 20 * Real.logb 10 (|x| + 1 / 10 ^ 10))
  let gain_reduction := audio_db.map
    (fun d => if d > threshold then (d - threshold) * (1 - 1 / ratio) else 0)
  let envelope := apply_envelope sr gain_reduction attack release
  let compressed_db := List.zipWith (· - ·) audio_db envelope
  let compressed_linear :=
    List.zipWith (fun x d => Real.sign x * (10 : ℝ) ^ (d / 20)) xs compressed_db
  if makeup_gain ≠ 0 then
    compressed_linear.map (fun y => y * (10 : ℝ) ^ (makeup_gain / 20))
  else compressed_linear

/-- Body of `MasteringEngine.apply_compression`.  The only reachable internal
exception in the model is the Python `ZeroDivisionError` from `1 / ratio`
when the (possibly DR-optimized) ratio is zero; `if target_dr:` is Python
truthiness, so a present value of 0 also bypasses the optimization. -/
noncomputable def apply_compressionE (sr : ℕ) (audio : NpAudio) (c : CompressionSettings) :
    Except String NpAudio :=
  let tr : ℝ × ℝ :=
    match c.target_dynamic_range with
    | some t =>
        if t ≠ 0 then
          optimize_compression_for_dr (calculate_dynamic_range audio) t c.threshold c.ratio
        else (c.threshold, c.ratio)
    | none => (c.threshold, c.ratio)
  if tr.2 = 0 then .error "ZeroDivisionError"
  else
    .ok (perChannel
      (fun ch => apply_compression_channel sr ch tr.1 tr.2 c.attack c.release c.makeup_gain)
      audio)

/-- `MasteringEngine.apply_compression` with its `try/except` returning the
input audio on an internal exception. -/
noncomputable def apply_compression (sr : ℕ) (audio : NpAudio) (c : CompressionSettings) :
    NpAudio :=
  match apply_compressionE sr audio c with
  | .ok y => y
  | .error _ => audio

/-! ### EQ (`MasteringEngine._apply_eq_band`, `apply_eq`)

`scipy.signal.lfilter` is the standard direct-form IIR recursion with zero
initial state; `scipy.signal.filtfilt` is modelled as the forward-backward
pass without the scipy edge padding (but keeping its input-length check,
which raises for inputs of at most `3 * max(len(a), len(b)) = 9` samples).
No claim depends on the numeric output of a filter. -/

/-- Direct-form IIR filter step: `xp`/`yp` hold past inputs/outputs, most
recent first. -/
noncomputable def lfilter_go (b a : List ℝ) (a0 : ℝ) :
    List ℝ → List ℝ → List ℝ → List ℝ
  | _, _, [] => []
  | xp, yp, x0 :: rest =>
      let xs := x0 :: xp
      let y0 := ((List.zipWith (· * ·) b xs).sum
                  - (List.zipWith (· * ·) (a.drop 1) yp).sum) / a0
      y0 :: lfilter_go b a a0 xs (y0 :: yp) rest

/-- `scipy.signal.lfilter` with zero initial conditions. -/
noncomputable def lfilter (b a x : List ℝ) : List ℝ :=
  lfilter_go b a (a.headD 1) [] [] x

/-- `scipy.signal.filtfilt` modulo edge padding: forward filter, reverse,
filter, reverse; raises when the input is not longer than the default pad
length 9 for 3-tap coefficients. -/
noncomputable def filtfiltE (b a x : List ℝ) : Except String (List ℝ) :=
  if x.length ≤ 9 then .error "ValueError: x too short for padlen"
  else .ok ((lfilter b a (lfilter b a x).reverse).reverse)

/-- Biquad / Butterworth design of `_apply_eq_band`, returning normalized
`(b, a)` or failing like `scipy.signal.butter` when the normalized critical
frequency is outside `(0, 1)`.  `none` models the final `else: return audio`
branch for an unknown type. -/
noncomputable def eq_band_coeffs (sr : ℕ) (freq gain q : ℝ) (eq_type : String) :
    Except String (Option (List ℝ × List ℝ)) :=
  let nyquist : ℝ := (sr : ℝ) / 2
  let normalized_freq := freq / nyquist
  if eq_type = "highpass" then
    if normalized_freq ≤ 0 ∨ 1 ≤ normalized_freq then
      .error "ValueError: digital filter critical frequencies must be 0 < Wn < 1"
    else
      -- 2nd-order Butterworth high-pass via the bilinear transform,
      -- as designed by scipy.signal.butter.
      let wt := Real.tan (Real.pi * normalized_freq / 2)
      let d := 1 + Real.sqrt 2 * wt + wt ^ 2
      .ok (some ([1 / d, -2 / d, 1 / d],
                 [1, 2 * (wt ^ 2 - 1) / d, (1 - Real.sqrt 2 * wt + wt ^ 2) / d]))
  else if eq_type = "lowpass" then
    if normalized_freq ≤ 0 ∨ 1 ≤ normalized_freq then
      .error "ValueError: digital filter critical frequencies must be 0 < Wn < 1"
    else
      let wt := Real.tan (Real.pi * normalized_freq / 2)
      let d := 1 + Real.sqrt 2 * wt + wt ^ 2
      .ok (some ([wt ^ 2 / d, 2 * wt ^ 2 / d, wt ^ 2 / d],
                 [1, 2 * (wt ^ 2 - 1) / d, (1 - Real.sqrt 2 * wt + wt ^ 2) / d]))
  else if eq_type = "peak" then
    let w := 2 * Real.pi * freq / sr
    let A := (10 : ℝ) ^ (gain / 40)
    let alpha := Real.sin w / (2 * q)
    let b0 := 1 + alpha * A
    let b1 := -2 * Real.cos w
    let b2 := 1 - alpha * A
    let a0 := 1 + alpha / A
    let a1 := -2 * Real.cos w
    let a2 := 1 - alpha / A
    .ok (some ([b0 / a0, b1 / a0, b2 / a0], [1, a1 / a0, a2 / a0]))
  else if eq_type = "low_shelf" then
    let w := 2 * Real.pi * freq / sr
    let A := (10 : ℝ) ^ (gain / 40)
    let alpha := Real.sin w / 2 * Real.sqrt ((A + 1 / A) * (1 / 1 - 1) + 2)
    let b0 := A * ((A + 1) - (A - 1) * Real.cos w + 2 * Real.sqrt A * alpha)
    let b1 := 2 * A * ((A - 1) - (A + 1) * Real.cos w)
    let b2 := A * ((A + 1) - (A - 1) * Real.cos w - 2 * Real.sqrt A * alpha)
    let a0 := (A + 1) + (A - 1) * Real.cos w + 2 * Real.sqrt A * alpha
    let a1 := -2 * ((A - 1) + (A + 1) * Real.cos w)
    let a2 := (A + 1) + (A - 1) * Real.cos w - 2 * Real.sqrt A * alpha
    .ok (some ([b0 / a0, b1 / a0, b2 / a0], [1, a1 / a0, a2 / a0]))
  else if eq_type = "high_shelf" then
    let w := 2 * Real.pi * freq / sr
    let A := (10 : ℝ) ^ (gain / 40)
    let alpha := Real.sin w / 2 * Real.sqrt ((A + 1 / A) * (1 / 1 - 1) + 2)
    let b0 := A * ((A + 1) + (A - 1) * Real.cos w + 2 * Real.sqrt A * alpha)
    let b1 := -2 * A * ((A - 1) + (A + 1) * Real.cos w)
    let b2 := A * ((A + 1) + (A - 1) * Real.cos w - 2 * Real.sqrt A * alpha)
    let a0 := (A + 1) - (A - 1) * Real.cos w + 2 * Real.sqrt A * alpha
    let a1 := 2 * ((A - 1) - (A + 1) * Real.cos w)
    let a2 := (A + 1) - (A - 1) * Real.cos w - 2 * Real.sqrt A * alpha
    .ok (some ([b0 / a0, b1 / a0, b2 / a0], [1, a1 / a0, a2 / a0]))
  else .ok none

/-- `MasteringEngine._apply_eq_band` (fallible body): design the filter,
then zero-phase filter each channel. -/
noncomputable def apply_eq_bandE (sr : ℕ) (audio : NpAudio) (freq gain q : ℝ)
    (eq_type : String) : Except String NpAudio :=
  match eq_band_coeffs sr freq gain q eq_type with
  | .error e => .error e
  | .ok none => .ok audio
  | .ok (some (b, a)) =>
      match audio with
      | .oneD xs => (filtfiltE b a xs).map .oneD
      | .twoD cs => (cs.mapM (filtfiltE b a)).map .twoD

/-- Body of `MasteringEngine.apply_eq`: fold the bands, applying only those
with `|gain| > 0.1`; any band failure aborts the fold. -/
noncomputable def apply_eqE (sr : ℕ) (audio : NpAudio) (s : EqSettings) :
    Except String NpAudio :=
  s.bands.foldlM
    (fun acc band =>
      if |band.gain| > 0.1 then
        apply_eq_bandE sr acc band.frequency band.gain band.q band.eq_type
      else .ok acc)
    audio

/-- `MasteringEngine.apply_eq` with its `try/except` returning the original
input audio on an internal exception. -/
noncomputable def apply_eq (sr : ℕ) (audio : NpAudio) (s : EqSettings) : NpAudio :=
  match apply_eqE sr audio s with
  | .ok y => y
  | .error _ => audio

/-! ### The chain (`MasteringEngine.apply_mastering_chain`) -/

/-- `MasteringEngine.apply_mastering_chain`: each present (truthy) settings
section is applied, in the source order EQ, Compression, Saturation,
Stereo, Limiting. -/
noncomputable def apply_mastering_chain (sr : ℕ) (audio : NpAudio)
    (settings : MasteringSettings) : NpAudio :=
  let p := audio
  let p := match settings.eq_settings with
    | some e => apply_eq sr p e
    | none => p
  let p := match settings.compression_settings with
    | some c => apply_compression sr p c
    | none => p
  let p := match settings.saturation_settings with
    | some s => apply_saturation p s
    | none => p
  let p := match settings.stereo_settings with
    | some st => apply_stereo_processing p st
    | none => p
  let p := match settings.limiting_settings with
    | some l => apply_limiting sr p l
    | none => p
  p

/-! ### Frequency masking (`AudioAnalyzer._analyze_frequency_masking`)

The STFT magnitude and the per-band bin selection are librosa calls; the
embedding abstracts them as the mean band magnitude `energy i` of the
`i`-th critical band (`np.mean(magnitude[low_idx:high_idx, :])`).  The
claims depend only on the band table and the per-band logic. -/

/-- The `critical_bands` table of `_analyze_frequency_masking`
(Bark scale approximation), exactly as listed in the source. -/
def critical_bands : List (ℕ × ℕ) :=
  [(20, 100), (100, 200), (200, 300), (300, 400), (400, 510),
   (510, 630), (630, 770), (770, 920), (920, 1080), (1080, 1270),
   (1270, 1480), (1480, 1720), (1720, 2000), (2000, 2320),
   (2320, 2700), (2700, 3150), (3150, 3700), (3700, 4400),
   (4400, 5300), (5300, 6400), (6400, 7700), (7700, 9500),
   (9500, 12000), (12000, 15500), (15500, 20000)]

/-- One entry of the returned `critical_bands` dictionary.  The centers
`(low + high) / 2` are all exact integers, so `center_freq` is kept as a
natural number and the dictionary key `band_{center:.0f}hz` prints it
exactly. -/
structure MaskBandInfo where
  key : String
  energy_db : ℝ
  is_masked : Bool
  center_freq : ℕ

/-- The dictionary returned by `_analyze_frequency_masking`. -/
structure MaskingResult where
  bands : List MaskBandInfo
  recommendations : List String
  total_masked_bands : ℕ

/-- The recommendation text for a masked band, chosen by center frequency. -/
def masking_rec_text (c : ℕ) : String :=
  if c < 500 then "Boost " ++ toString c ++ "Hz (+2-4dB) - masked low frequencies"
  else if c < 2000 then "Boost " ++ toString c ++ "Hz (+1-3dB) - masked midrange"
  else "Boost " ++ toString c ++ "Hz (+2-5dB) - masked high frequencies"

/-- The loop body of `_analyze_frequency_masking` for the enumerated band
`p = (i, (low_freq, high_freq))`: energy in dB with the `1e-10` guard,
masked below the `-60` dB audibility threshold. -/
noncomputable def mask_band_info (energy : ℕ → ℝ) (p : ℕ × (ℕ × ℕ)) : MaskBandInfo :=
  let e_db : ℝ := 20 * Real.logb 10 (energy p.1 + 1 / 10 ^ 10)
  let center : ℕ := (p.2.1 + p.2.2) / 2
  { key := "band_" ++ toString center ++ "hz"
    energy_db := e_db
    is_masked := decide (e_db < -60)
    center_freq := center }

/-- `AudioAnalyzer._analyze_frequency_masking` over the abstracted per-band
mean magnitudes: one dictionary entry per band of the table, one
recommendation per masked band whose center frequency exceeds 100 Hz, and
the count of masked bands. -/
noncomputable def analyze_frequency_masking (energy : ℕ → ℝ) : MaskingResult :=
  let infos := critical_bands.enum.map (mask_band_info energy)
  { bands := infos
    recommendations :=
      (infos.filter (fun b => b.is_masked && decide (100 < b.center_freq))).map
        (fun b => masking_rec_text b.center_freq)
    total_masked_bands := infos.countP (fun b => b.is_masked) }

/-! ### Genre classification (`AudioAnalyzer._predict_genre`)

The librosa feature extraction is abstracted as the feature record; the
rule table, argmax and fallback are embedded exactly.  The features are
rationals so the classifier is executable. -/

/-- The feature statistics consumed by the rule-based classifier. -/
structure GenreFeatures where
  centroid_mean : ℚ
  zcr_mean : ℚ
  tempo : ℚ
  rolloff_mean : ℚ
  mfcc0 : ℚ
  mfcc1 : ℚ
  mfcc2 : ℚ
  mfcc1_std : ℚ

/-- The `electronic` rule score. -/
def electronic_score (f : GenreFeatures) : ℚ :=
  (if f.centroid_mean > 1800 then (4 : ℚ) / 10 else 0)
  + (if f.zcr_mean > 5 / 100 then 3 / 10 else 0)
  + (if f.tempo > 110 ∧ f.tempo < 180 then 3 / 10 else 0)
  + (if f.rolloff_mean > 2500 then 3 / 10 else 0)
  + (if f.mfcc2 > 10 then 4 / 10 else 0)
  + (if f.mfcc1_std > 20 then 3 / 10 else 0)

/-- The `rock` rule score. -/
def rock_score (f : GenreFeatures) : ℚ :=
  (if f.centroid_mean > 1500 ∧ f.centroid_mean < 3000 then (2 : ℚ) / 10 else 0)
  + (if f.tempo > 100 ∧ f.tempo < 160 then 2 / 10 else 0)
  + (if f.rolloff_mean > 3000 then 3 / 10 else 0)
  + (if f.mfcc2 < 0 then 3 / 10 else 0)

/-- The `jazz` rule score. -/
def jazz_score (f : GenreFeatures) : ℚ :=
  (if f.centroid_mean < 1500 then (2 : ℚ) / 10 else 0)
  + (if f.tempo > 80 ∧ f.tempo < 120 then 2 / 10 else 0)
  + (if f.zcr_mean < 3 / 100 then 3 / 10 else 0)
  + (if f.mfcc1_std < 15 then 2 / 10 else 0)
  + (if f.rolloff_mean < 2000 then 3 / 10 else 0)

/-- The `hip-hop` rule score. -/
def hiphop_score (f : GenreFeatures) : ℚ :=
  (if f.tempo > 70 ∧ f.tempo < 100 then (3 : ℚ) / 10 else 0)
  + (if f.centroid_mean < 1800 then 2 / 10 else 0)
  + (if f.mfcc0 > 0 then 3 / 10 else 0)
  + (if f.rolloff_mean < 2500 then 2 / 10 else 0)

/-- The `pop` rule score. -/
def pop_score (f : GenreFeatures) : ℚ :=
  (if f.tempo > 90 ∧ f.tempo < 130 then (2 : ℚ) / 10 else 0)
  + (if f.centroid_mean > 1000 ∧ f.centroid_mean < 2500 then 3 / 10 else 0)
  + (if f.zcr_mean > 3 / 100 ∧ f.zcr_mean < 8 / 100 then 3 / 10 else 0)
  + (if |f.mfcc1| < 5 / 10 then 2 / 10 else 0)

/-- The `genre_scores` dictionary in insertion order. -/
def genre_scores (f : GenreFeatures) : List (String × ℚ) :=
  [("electronic", electronic_score f), ("rock", rock_score f), ("jazz", jazz_score f),
   ("hip-hop", hiphop_score f), ("pop", pop_score f)]

/-- Python `max(genre_scores, key=genre_scores.get)` together with the score
lookup: the first maximal entry in insertion order (later entries replace
only on a strictly greater score). -/
def first_max : List (String × ℚ) → String × ℚ
  | [] => ("", 0)
  | x :: t => t.foldl (fun acc y => if y.2 > acc.2 then y else acc) x

/-- `AudioAnalyzer._predict_genre` over extracted features: argmax of the
rule scores, with the low-confidence fallback to `pop` at 0.5 and the final
`min(confidence, 1.0)` cap. -/
def predict_genre (f : GenreFeatures) : String × ℚ :=
  let m := first_max (genre_scores f)
  if m.2 < 3 / 10 then ("pop", min ((1 : ℚ) / 2) 1) else (m.1, min m.2 1)

/-! ### Analysis result assembly (`AudioAnalyzer.analyze_track`)

Tempo and key detection run under bare `except` handlers that substitute
the defaults 120.0 and "C"; a failed detection is modelled as `none`.  The
returned dictionary has exactly the keys listed in the source; the payload
of the unrelated entries is irrelevant to claim C8 and is carried
abstractly as the remaining fields. -/

/-- The keys of the dictionary returned by `analyze_track`. -/
def analyze_track_keys : List String :=
  ["duration", "tempo", "key", "loudness", "predicted_genre", "genre_confidence",
   "spectral_features", "frequency_analysis", "masking_analysis", "stereo_analysis",
   "sample_rate", "channels"]

/-- The record returned by `analyze_track`, one field per dictionary key. -/
structure AnalysisResult where
  duration : ℝ
  tempo : ℝ
  key : String
  loudness : List (String × ℝ)
  predicted_genre : String
  genre_confidence : ℚ
  spectral_features : List (String × ℝ)
  frequency_analysis : List (String × ℝ)
  masking_analysis : MaskingResult
  stereo_analysis : List (String × ℝ)
  sample_rate : ℕ
  channels : ℕ

/-- The result assembly of `analyze_track`: a failed tempo detection
(`none`) yields the 120.0 default, a failed key detection yields "C", and
nothing else in the result records that a default was substituted. -/
def analyze_track_result (duration : ℝ) (tempo_detect : Option ℝ)
    (key_detect : Option String) (loudness : List (String × ℝ))
    (genre : String × ℚ) (spectral : List (String × ℝ))
    (freq : List (String × ℝ)) (masking : MaskingResult)
    (stereo : List (String × ℝ)) (sr : ℕ) (channels : ℕ) : AnalysisResult :=
  { duration := duration
    tempo := tempo_detect.getD 120
    key := key_detect.getD "C"
    loudness := loudness
    predicted_genre := genre.1
    genre_confidence := genre.2
    spectral_features := spectral
    frequency_analysis := freq
    masking_analysis := masking
    stereo_analysis := stereo
    sample_rate := sr
    channels := channels }

/-! ## Helper lemmas -/

/-- The saturation wet signal is odd in the input sample for every kind. -/
lemma saturation_wet_neg (kind : String) (d x : ℝ) :
    saturation_wet kind d (-x) = -saturation_wet kind d x := by
  unfold saturation_wet tube_saturation tape_saturation soft_clipper
  have h : -x * d = -(x * d) := by ring
  have h7 : -x * d * 0.7 = -(x * d * 0.7) := by ring
  split_ifs
  · rw [h7, Real.tanh_neg]; ring
  · rw [h, abs_neg, neg_div]
  · rw [h, abs_neg, Real.sign_neg]; ring

/-- The saturation wet signal maps zero to zero for every kind. -/
lemma saturation_wet_zero (kind : String) (d : ℝ) : saturation_wet kind d 0 = 0 := by
  unfold saturation_wet tube_saturation tape_saturation soft_clipper
  split_ifs
  · simp
  · simp
  · simp

/-! ## Claims -/

/-- C4, counterexample: with measured DR 10 and target 20 (compression must
decrease, Δ = 10), the code raises the threshold −12 by `min(10·0.3, 4) = 3`
to −9, while the formula of the claim, `sign·min(Δ·0.5, 6)`, prescribes
−12 + 5 = −7. -/
theorem C4_counterexample :
    (optimize_compression_for_dr 10 20 (-12) 4).1 = -9 ∧
    -12 + min (|(10 : ℝ) - 20| * 0.5) 6 = -7 ∧ ((-9 : ℝ)) ≠ -7 := by
  refine ⟨?_, by rw [show |(10 : ℝ) - 20| = 10 by norm_num]; norm_num, by norm_num⟩
  unfold optimize_compression_for_dr
  rw [if_neg (by norm_num), if_pos (by norm_num)]
  rw [show |(10 : ℝ) - 20| = 10 by norm_num]
  norm_num

/-- C4, amended: when the measured DR exceeds the target by Δ > 2 dB the
threshold is lowered by `min(Δ·0.5, 6)` and the ratio becomes
`min(ratio·(1 + Δ·0.1), 10)`; when the target exceeds the measured DR by
more than 2 dB the threshold is raised by `min(|Δ|·0.3, 4)` and the ratio
becomes `max(ratio·(1 − |Δ|·0.05), 1.5)`; within ±2 dB both are returned
unchanged. -/
theorem C4_optimize_compression (current target threshold ratio : ℝ) :
    (current - target > 2 →
      optimize_compression_for_dr current target threshold ratio
        = (threshold - min ((current - target) * 0.5) 6,
           min (ratio * (1 + (current - target) * 0.1)) 10)) ∧
    (current - target < -2 →
      optimize_compression_for_dr current target threshold ratio
        = (threshold + min (|current - target| * 0.3) 4,
           max (ratio * (1 - |current - target| * 0.05)) 1.5)) ∧
    (|current - target| ≤ 2 →
      optimize_compression_for_dr current target threshold ratio
        = (threshold, ratio)) := by
  refine ⟨fun h => ?_, fun h => ?_, fun h => ?_⟩
  · unfold optimize_compression_for_dr
    rw [if_pos h]
  · unfold optimize_compression_for_dr
    rw [if_neg (by linarith), if_pos h]
  · have h1 : ¬ (current - target > 2) := by
      have := (abs_le.mp h).2; linarith
    have h2 : ¬ (current - target < -2) := by
      have := (abs_le.mp h).1; linarith
    unfold optimize_compression_for_dr
    rw [if_neg h1, if_neg h2]

/-- C4, witness: the increase branch at measured 20, target 10. -/
theorem C4_witness :
    (20 : ℝ) - 10 > 2 ∧
    optimize_compression_for_dr 20 10 (-12) 4
      = (-12 - min (((20 : ℝ) - 10) * 0.5) 6,
         min ((4 : ℝ) * (1 + ((20 : ℝ) - 10) * 0.1)) 10) :=
  ⟨by norm_num, (C4_optimize_compression 20 10 (-12) 4).1 (by norm_num)⟩

/-- C7: each saturation kind mixes as `x·(1−m) + wet·m`, is odd in the
input sample, and maps zero to zero (no DC offset). -/
theorem C7_saturation_odd (kind : String) (d m x : ℝ)
    (_hd : 0 ≤ d) (_hm0 : 0 ≤ m) (_hm1 : m ≤ 1) :
    apply_saturation_sample kind d m x = x * (1 - m) + saturation_wet kind d x * m ∧
    apply_saturation_sample kind d m (-x) = -apply_saturation_sample kind d m x ∧
    apply_saturation_sample kind d m 0 = 0 := by
  refine ⟨rfl, ?_, ?_⟩
  · unfold apply_saturation_sample
    rw [saturation_wet_neg]; ring
  · unfold apply_saturation_sample
    rw [saturation_wet_zero]; ring

/-- C7, witness: the tape kind at drive 1, mix 1/2, sample 1. -/
theorem C7_witness :
    (0 : ℝ) ≤ 1 ∧ (0 : ℝ) ≤ 1 / 2 ∧ (1 : ℝ) / 2 ≤ 1 ∧
    (apply_saturation_sample "tape" 1 (1 / 2) 1
        = 1 * (1 - 1 / 2) + saturation_wet "tape" 1 1 * (1 / 2) ∧
      apply_saturation_sample "tape" 1 (1 / 2) (-1)
        = -apply_saturation_sample "tape" 1 (1 / 2) 1 ∧
      apply_saturation_sample "tape" 1 (1 / 2) 0 = 0) :=
  ⟨by norm_num, by norm_num, by norm_num,
    C7_saturation_odd "tape" 1 (1 / 2) 1 (by norm_num) (by norm_num) (by norm_num)⟩

/-- C8, counterexample: the dictionary returned by `analyze_track` has no
`tempo_defaulted` or `key_defaulted` key, and the result built from a
failed tempo detection is identical to the one built from a genuinely
detected tempo of 120, so the substitution is invisible in the result. -/
theorem C8_counterexample :
    "tempo_defaulted" ∉ analyze_track_keys ∧
    "key_defaulted" ∉ analyze_track_keys ∧
    analyze_track_result 1 none (some "D") [] ("pop", 1 / 2) [] []
        ⟨[], [], 0⟩ [] 44100 2
      = analyze_track_result 1 (some 120) (some "D") [] ("pop", 1 / 2) [] []
        ⟨[], [], 0⟩ [] 44100 2 :=
  ⟨by decide, by decide, rfl⟩

/-- C8, amended: on a failed tempo detection the result carries tempo 120
and is equal to the result of a detection that returned 120; on a failed
key detection the result carries key "C" and equals the result of a
detection that returned "C".  No field of the result records that a
default was substituted. -/
theorem C8_defaults_unrecorded (d : ℝ) (t : Option ℝ) (k : Option String)
    (ld : List (String × ℝ)) (g : String × ℚ) (sp fr : List (String × ℝ))
    (mk : MaskingResult) (st : List (String × ℝ)) (sr ch : ℕ) :
    analyze_track_result d none k ld g sp fr mk st sr ch
      = analyze_track_result d (some 120) k ld g sp fr mk st sr ch ∧
    (analyze_track_result d none k ld g sp fr mk st sr ch).tempo = 120 ∧
    analyze_track_result d t none ld g sp fr mk st sr ch
      = analyze_track_result d t (some "C") ld g sp fr mk st sr ch ∧
    (analyze_track_result d t none ld g sp fr mk st sr ch).key = "C" :=
  ⟨rfl, rfl, rfl, rfl⟩

/-- Zipping a list with itself is mapping the diagonal. -/
lemma zipWith_self_eq_map (f : ℝ → ℝ → ℝ) (l : List ℝ) :
    List.zipWith f l l = l.map (fun a => f a a) := by
  induction l with
  | nil => rfl
  | cons a t ih => simp only [List.zipWith, List.map]; rw [ih]

/-- Adding an everywhere-zero side channel to the mid channel is the
identity. -/
lemma zip_add_zero_side (w : ℝ) (hw : w = 0) (l r : List ℝ) :
    List.zipWith (· + ·) (List.zipWith (fun a b => (a + b) / 2) l r)
      (List.zipWith (fun a b => (a - b) / 2 * w) l r)
      = List.zipWith (fun a b => (a + b) / 2) l r := by
  subst hw
  induction l generalizing r with
  | nil => simp
  | cons a t ih =>
      cases r with
      | nil => simp
      | cons b s => simpa using ih s

/-- Subtracting an everywhere-zero side channel from the mid channel is the
identity. -/
lemma zip_sub_zero_side (w : ℝ) (hw : w = 0) (l r : List ℝ) :
    List.zipWith (· - ·) (List.zipWith (fun a b => (a + b) / 2) l r)
      (List.zipWith (fun a b => (a - b) / 2 * w) l r)
      = List.zipWith (fun a b => (a + b) / 2) l r := by
  subst hw
  induction l generalizing r with
  | nil => simp
  | cons a t ih =>
      cases r with
      | nil => simp
      | cons b s => simpa using ih s

/-- C9: stereo processing with width 0 returns the mid signal `(L+R)/2` on
both channels, so the two output channels agree to well below 10⁻⁹
everywhere. -/
theorem C9_width_zero_folds_mono (l r : List ℝ) :
    apply_stereo_processing (.twoD [l, r]) ⟨0⟩
      = .twoD [List.zipWith (fun a b => (a + b) / 2) l r,
               List.zipWith (fun a b => (a + b) / 2) l r] ∧
    ∀ d ∈ List.zipWith (fun a b => |a - b|)
        (List.zipWith (fun a b => (a + b) / 2) l r)
        (List.zipWith (fun a b => (a + b) / 2) l r),
      d < 1 / 10 ^ 9 := by
  constructor
  · simp only [apply_stereo_processing]
    rw [if_pos (show (0 : ℝ) ≠ 1 by norm_num)]
    rw [zip_add_zero_side 0 rfl, zip_sub_zero_side 0 rfl]
  · intro d hd
    rw [zipWith_self_eq_map] at hd
    obtain ⟨a, -, ha⟩ := List.mem_map.mp hd
    rw [← ha]
    norm_num

/-- The strict-replacement fold of `first_max` returns the initial value or
a list member, never below the initial value, and above every member. -/
lemma first_max_foldl_spec (t : List (String × ℚ)) (a : String × ℚ) :
    (t.foldl (fun acc y => if y.2 > acc.2 then y else acc) a = a
      ∨ t.foldl (fun acc y => if y.2 > acc.2 then y else acc) a ∈ t) ∧
    a.2 ≤ (t.foldl (fun acc y => if y.2 > acc.2 then y else acc) a).2 ∧
    ∀ y ∈ t, y.2 ≤ (t.foldl (fun acc y => if y.2 > acc.2 then y else acc) a).2 := by
  induction t generalizing a with
  | nil => exact ⟨Or.inl rfl, le_refl _, by simp⟩
  | cons y t ih =>
      simp only [List.foldl_cons]
      obtain ⟨hmem, hle, hall⟩ := ih (if y.2 > a.2 then y else a)
      have hab : a.2 ≤ (if y.2 > a.2 then y else a).2 := by
        split_ifs with h
        · exact le_of_lt h
        · exact le_refl _
      have hyb : y.2 ≤ (if y.2 > a.2 then y else a).2 := by
        split_ifs with h
        · exact le_refl _
        · exact le_of_not_lt h
      refine ⟨?_, le_trans hab hle, ?_⟩
      · rcases hmem with h | h
        · rw [h]
          split_ifs with hc
          · exact Or.inr (List.mem_cons_self _ _)
          · exact Or.inl rfl
        · exact Or.inr (List.mem_cons_of_mem _ h)
      · intro z hz
        rcases List.mem_cons.mp hz with rfl | hz
        · exact le_trans hyb hle
        · exact hall z hz

/-- `first_max` of a nonempty list is a member achieving the maximal score. -/
lemma first_max_spec (l : List (String × ℚ)) (hl : l ≠ []) :
    first_max l ∈ l ∧ ∀ y ∈ l, y.2 ≤ (first_max l).2 := by
  cases l with
  | nil => exact absurd rfl hl
  | cons x t =>
      have hfm : first_max (x :: t)
          = List.foldl (fun acc y => if y.2 > acc.2 then y else acc) x t := rfl
      rw [hfm]
      obtain ⟨hmem, hle, hall⟩ := first_max_foldl_spec t x
      constructor
      · rcases hmem with h | h
        · rw [h]; exact List.mem_cons_self _ _
        · exact List.mem_cons_of_mem _ h
      · intro y hy
        rcases List.mem_cons.mp hy with rfl | hy
        · exact hle
        · exact hall y hy

/-- C6: the genre prediction returns a label from the allowed set with
confidence in [0, 1]; below top score 0.3 it is exactly `("pop", 0.5)`, and
otherwise the returned label attains the maximal rule score and the
confidence is the top score capped at 1. -/
theorem C6_predict_genre (f : GenreFeatures) :
    (predict_genre f).1 ∈ ["electronic", "rock", "jazz", "hip-hop", "pop"] ∧
    0 ≤ (predict_genre f).2 ∧ (predict_genre f).2 ≤ 1 ∧
    ((first_max (genre_scores f)).2 < 3 / 10 →
      predict_genre f = ("pop", 1 / 2)) ∧
    (3 / 10 ≤ (first_max (genre_scores f)).2 →
      ∃ s ∈ genre_scores f, (predict_genre f).1 = s.1 ∧
        (∀ y ∈ genre_scores f, y.2 ≤ s.2) ∧
        (predict_genre f).2 = min s.2 1) := by
  obtain ⟨hmem, hall⟩ := first_max_spec (genre_scores f) (by simp [genre_scores])
  by_cases hc : (first_max (genre_scores f)).2 < 3 / 10
  · have hp : predict_genre f = ("pop", min ((1 : ℚ) / 2) 1) := by
      unfold predict_genre
      rw [if_pos hc]
    have hmin : min ((1 : ℚ) / 2) 1 = 1 / 2 := by norm_num
    rw [hp, hmin]
    exact ⟨by decide, by norm_num, by norm_num, fun _ => rfl,
      fun h => absurd h (not_le.mpr hc)⟩
  · push_neg at hc
    have hp : predict_genre f
        = ((first_max (genre_scores f)).1, min (first_max (genre_scores f)).2 1) := by
      unfold predict_genre
      rw [if_neg (not_lt.mpr hc)]
    refine ⟨?_, ?_, ?_, fun h => absurd hc (not_le.mpr h), fun _ => ?_⟩
    · rw [hp]
      have h1 := List.mem_map_of_mem Prod.fst hmem
      simpa [genre_scores] using h1
    · rw [hp]
      have : (0 : ℚ) ≤ 3 / 10 := by norm_num
      exact le_min (le_trans this hc) (by norm_num)
    · rw [hp]
      exact min_le_right _ _
    · exact ⟨first_max (genre_scores f), hmem, by rw [hp], hall, by rw [hp]⟩

/-- C6, witness: the all-zero feature record scores 1.0 for jazz, so the
high-score branch of the theorem applies. -/
theorem C6_witness :
    3 / 10 ≤ (first_max (genre_scores ⟨0, 0, 0, 0, 0, 0, 0, 0⟩)).2 ∧
    ∃ s ∈ genre_scores ⟨0, 0, 0, 0, 0, 0, 0, 0⟩,
      (predict_genre ⟨0, 0, 0, 0, 0, 0, 0, 0⟩).1 = s.1 ∧
      (∀ y ∈ genre_scores ⟨0, 0, 0, 0, 0, 0, 0, 0⟩, y.2 ≤ s.2) ∧
      (predict_genre ⟨0, 0, 0, 0, 0, 0, 0, 0⟩).2
        = min s.2 1 := by
  have h : 3 / 10 ≤ (first_max (genre_scores ⟨0, 0, 0, 0, 0, 0, 0, 0⟩)).2 := by
    norm_num [genre_scores, first_max, electronic_score, rock_score, jazz_score,
      hiphop_score, pop_score]
  exact ⟨h, (C6_predict_genre ⟨0, 0, 0, 0, 0, 0, 0, 0⟩).2.2.2.2 h⟩

/-- C9, witness: the stereo pair of one-sample channels `[0]` and `[0]`. -/
theorem C9_witness :
    |((0 : ℝ) + 0) / 2 - ((0 : ℝ) + 0) / 2| < 1 / 10 ^ 9 :=
  (C9_width_zero_folds_mono [0] [0]).2 _ (by simp)

/-- The dB energy of a zero-magnitude band: `20·log10(1e-10) = -200`. -/
lemma logb_guard_zero : Real.logb 10 ((0 : ℝ) + 1 / 10 ^ 10) = -10 := by
  rw [zero_add, show (1 : ℝ) / 10 ^ 10 = ((10 : ℝ) ^ (10 : ℕ))⁻¹ by norm_num]
  rw [Real.logb_inv, Real.logb_pow, Real.logb_self_eq_one (by norm_num : (1 : ℝ) < 10)]
  norm_num

/-- A band with zero mean magnitude is classified as masked. -/
lemma masked_at_zero_energy (energy : ℕ → ℝ) (i : ℕ) (h : energy i = 0) :
    (decide ((20 : ℝ) * Real.logb 10 (energy i + 1 / 10 ^ 10) < -60)) = true := by
  rw [h, decide_eq_true_iff, logb_guard_zero]
  norm_num

/-- C2, counterexample: for the silent input (all band magnitudes zero, as
for a silent signal) the `critical_bands` dictionary has 25 distinct keys,
not 24. -/
theorem C2_counterexample :
    ((analyze_frequency_masking fun _ => 0).bands.length = 25 ∧
      ((analyze_frequency_masking fun _ => 0).bands.map MaskBandInfo.key).Nodup) ∧
    (25 : ℕ) ≠ 24 := by
  refine ⟨⟨?_, ?_⟩, by norm_num⟩
  · decide
  · decide

/-- C2, amended: the masking analysis always produces exactly 25 critical
bands (the table in the source has 25 rows), `total_masked_bands` is at
most 25, and an all-zero (silent) band energy profile masks all 25. -/
theorem C2_band_count (energy : ℕ → ℝ) :
    (analyze_frequency_masking energy).bands.length = 25 ∧
    (analyze_frequency_masking energy).total_masked_bands ≤ 25 ∧
    ((∀ i, energy i = 0) →
      (analyze_frequency_masking energy).total_masked_bands = 25) := by
  have hlen : (analyze_frequency_masking energy).bands.length = 25 := by
    show (critical_bands.enum.map (mask_band_info energy)).length = 25
    rw [List.length_map, List.enum_length]
    decide
  have htot : (analyze_frequency_masking energy).total_masked_bands
      = (critical_bands.enum.map (mask_band_info energy)).countP
          (fun b => b.is_masked) := rfl
  refine ⟨hlen, ?_, ?_⟩
  · rw [htot]
    exact le_trans (List.countP_le_length _) (le_of_eq hlen)
  · intro hz
    rw [htot]
    rw [List.countP_eq_length.mpr ?_]
    · exact hlen
    · intro b hb
      obtain ⟨p, -, rfl⟩ := List.mem_map.mp hb
      exact masked_at_zero_energy energy p.1 (hz p.1)

/-- C2, witness: the all-zero energy profile for the silent-input clause. -/
theorem C2_witness :
    (∀ i : ℕ, (fun _ : ℕ => (0 : ℝ)) i = 0) ∧
    (analyze_frequency_masking fun _ => 0).total_masked_bands = 25 :=
  ⟨fun _ => rfl, (C2_band_count fun _ => 0).2.2 fun _ => rfl⟩

/-- C5, counterexample: on the silent input all 25 bands are masked but only
24 recommendations are emitted, because the 60 Hz band fails the
`center_freq > 100` guard; so the recommendation count is not
`total_masked_bands`. -/
theorem C5_counterexample :
    (analyze_frequency_masking fun _ => 0).recommendations.length = 24 ∧
    (analyze_frequency_masking fun _ => 0).total_masked_bands = 25 ∧
    (24 : ℕ) ≠ 25 := by
  have hmask : ∀ p : ℕ × (ℕ × ℕ), (mask_band_info (fun _ => 0) p).is_masked = true := by
    intro p
    exact masked_at_zero_energy (fun _ => 0) p.1 rfl
  refine ⟨?_, ?_, by norm_num⟩
  · show (((critical_bands.enum.map (mask_band_info fun _ => 0)).filter
        (fun b => b.is_masked && decide (100 < b.center_freq))).map
        (fun b => masking_rec_text b.center_freq)).length = 24
    have hfc : (critical_bands.enum.map (mask_band_info fun _ => 0)).filter
          (fun b => b.is_masked && decide (100 < b.center_freq))
        = (critical_bands.enum.map (mask_band_info fun _ => 0)).filter
          (fun b => decide (100 < b.center_freq)) := by
      apply List.filter_congr
      intro b hb
      obtain ⟨p, -, rfl⟩ := List.mem_map.mp hb
      rw [hmask p, Bool.true_and]
    rw [List.length_map, hfc]
    decide
  · show (critical_bands.enum.map (mask_band_info fun _ => 0)).countP
        (fun b => b.is_masked) = 25
    rw [List.countP_eq_length.mpr ?_]
    · rw [List.length_map, List.enum_length]; decide
    · intro b hb
      obtain ⟨p, -, rfl⟩ := List.mem_map.mp hb
      exact hmask p

/-- C5, amended: there is one recommendation per masked band whose center
frequency exceeds 100 Hz (the 60 Hz band never gets one), a band is masked
iff its mean energy is below −60 dB, and each recommendation text is chosen
from the center frequency by the `< 500` / `< 2000` boost ranges encoded in
`masking_rec_text`. -/
theorem C5_masking_recommendations (energy : ℕ → ℝ) :
    (analyze_frequency_masking energy).recommendations.length
      = ((analyze_frequency_masking energy).bands.filter
          (fun b => b.is_masked && decide (100 < b.center_freq))).length ∧
    (analyze_frequency_masking energy).bands.Forall
      (fun b => b.is_masked = true ↔ b.energy_db < -60) ∧
    (analyze_frequency_masking energy).recommendations
      = ((analyze_frequency_masking energy).bands.filter
          (fun b => b.is_masked && decide (100 < b.center_freq))).map
          (fun b => masking_rec_text b.center_freq) := by
  refine ⟨List.length_map _ _, ?_, rfl⟩
  rw [List.forall_iff_forall_mem]
  intro b hb
  obtain ⟨p, -, rfl⟩ := List.mem_map.mp hb
  exact decide_eq_true_iff

/-- The initial limiter gain is nonnegative for a positive ceiling. -/
lemma limiter_gain_nonneg (cl x : ℝ) (hcl : 0 < cl) : 0 ≤ limiter_gain cl x := by
  unfold limiter_gain
  split_ifs with h
  · exact le_min (by norm_num) (le_of_lt (div_pos hcl (lt_trans hcl h)))
  · norm_num

/-- The initial limiter gain scales the sample magnitude below the ceiling. -/
lemma limiter_gain_mul_le (cl x : ℝ) (hcl : 0 < cl) : |x| * limiter_gain cl x ≤ cl := by
  unfold limiter_gain
  split_ifs with h
  · have hx : 0 < |x| := lt_trans hcl h
    calc |x| * min 1 (cl / |x|) ≤ |x| * (cl / |x|) :=
          mul_le_mul_of_nonneg_left (min_le_right _ _) (le_of_lt hx)
      _ = cl := by field_simp
  · rw [mul_one]
    exact le_of_not_lt h

/-- Unfolding step of the limiter release smoothing. -/
lemma limiter_smooth_cons (rc prev g : ℝ) (t : List ℝ) :
    limiter_smooth rc prev (g :: t)
      = if g < prev then g :: limiter_smooth rc g t
        else (prev * rc + g * (1 - rc)) :: limiter_smooth rc (prev * rc + g * (1 - rc)) t :=
  rfl

/-- Every sample scaled by its smoothed limiter gain stays below the
positive ceiling, for any smoothed previous gain that is nonnegative and a
release coefficient in [0, 1]. -/
lemma limiter_smooth_bound (cl rc : ℝ) (hcl : 0 < cl) (hrc0 : 0 ≤ rc) (hrc1 : rc ≤ 1) :
    ∀ (xs : List ℝ) (prev : ℝ), 0 ≤ prev →
      ∀ y ∈ List.zipWith (· * ·) xs (limiter_smooth rc prev (xs.map (limiter_gain cl))),
        |y| ≤ cl := by
  intro xs
  induction xs with
  | nil =>
      intro prev _ y hy
      simp at hy
  | cons x t ih =>
      intro prev hprev y hy
      rw [List.map_cons, limiter_smooth_cons] at hy
      by_cases hlt : limiter_gain cl x < prev
      · rw [if_pos hlt, List.zipWith_cons_cons] at hy
        rcases List.mem_cons.mp hy with rfl | hy
        · rw [abs_mul, abs_of_nonneg (limiter_gain_nonneg cl x hcl)]
          exact limiter_gain_mul_le cl x hcl
        · exact ih (limiter_gain cl x) (limiter_gain_nonneg cl x hcl) y hy
      · rw [if_neg hlt, List.zipWith_cons_cons] at hy
        have hge : prev ≤ limiter_gain cl x := le_of_not_lt hlt
        have he0 : 0 ≤ prev * rc + limiter_gain cl x * (1 - rc) :=
          add_nonneg (mul_nonneg hprev hrc0)
            (mul_nonneg (limiter_gain_nonneg cl x hcl) (by linarith))
        have heg : prev * rc + limiter_gain cl x * (1 - rc) ≤ limiter_gain cl x := by
          have h1 : prev * rc ≤ limiter_gain cl x * rc :=
            mul_le_mul_of_nonneg_right hge hrc0
          nlinarith
        rcases List.mem_cons.mp hy with rfl | hy
        · calc |x * (prev * rc + limiter_gain cl x * (1 - rc))|
              = |x| * (prev * rc + limiter_gain cl x * (1 - rc)) := by
                rw [abs_mul, abs_of_nonneg he0]
            _ ≤ |x| * limiter_gain cl x :=
                mul_le_mul_of_nonneg_left heg (abs_nonneg x)
            _ ≤ cl := limiter_gain_mul_le cl x hcl
        · exact ih _ he0 y hy

/-- The release coefficient `1 - 1/release_samples` lies in [0, 1] for any
integer number of samples at least 1. -/
lemma release_coeff_bounds (z : ℤ) (hz : 1 ≤ z) :
    0 ≤ 1 - 1 / (z : ℝ) ∧ 1 - 1 / (z : ℝ) ≤ 1 := by
  have hz1 : (1 : ℝ) ≤ (z : ℝ) := by exact_mod_cast hz
  have hzpos : (0 : ℝ) < (z : ℝ) := by linarith
  constructor
  · have : 1 / (z : ℝ) ≤ 1 := by
      rw [div_le_one hzpos]
      exact hz1
    linarith
  · have : 0 < 1 / (z : ℝ) := by positivity
    linarith

/-- `_apply_limiting_channel` never exceeds a positive linear ceiling, for
any release time and sample rate. -/
lemma apply_limiting_channel_bound (sr : ℕ) (xs : List ℝ) (cl release : ℝ)
    (hcl : 0 < cl) :
    ∀ y ∈ apply_limiting_channel sr xs cl release, |y| ≤ cl := by
  intro y hy
  obtain ⟨hrc0, hrc1⟩ := release_coeff_bounds (max 1 (pyint (release * sr)))
    (le_max_left _ _)
  cases xs with
  | nil => simp [apply_limiting_channel] at hy
  | cons x t =>
      simp only [apply_limiting_channel, List.map_cons] at hy
      rw [List.zipWith_cons_cons] at hy
      rcases List.mem_cons.mp hy with rfl | hy
      · rw [abs_mul, abs_of_nonneg (limiter_gain_nonneg cl x hcl)]
        exact limiter_gain_mul_le cl x hcl
      · exact limiter_smooth_bound cl _ hcl hrc0 hrc1 t (limiter_gain cl x)
          (limiter_gain_nonneg cl x hcl) y hy

/-- C3: for every channel, every release time > 0 and every dB ceiling
c ≤ 0, the limiter output never exceeds the linear ceiling `10^(c/20)`
(in exact arithmetic, without even the 1-ULP allowance of the claim). -/
theorem C3_limiter_honours_ceiling (sr : ℕ) (xs : List ℝ) (c release : ℝ)
    (_hrel : 0 < release) (_hc : c ≤ 0) :
    ∀ y ∈ apply_limiting_channel sr xs ((10 : ℝ) ^ (c / 20)) release,
      |y| ≤ (10 : ℝ) ^ (c / 20) :=
  apply_limiting_channel_bound sr xs _ release (Real.rpow_pos_of_pos (by norm_num) _)

/-- C3, witness: a channel with a sample at twice the unit ceiling. -/
theorem C3_witness :
    (0 : ℝ) < 1 / 20 ∧ (0 : ℝ) ≤ 0 ∧
    ∀ y ∈ apply_limiting_channel 44100 [2, 1 / 2] ((10 : ℝ) ^ ((0 : ℝ) / 20)) (1 / 20),
      |y| ≤ (10 : ℝ) ^ ((0 : ℝ) / 20) :=
  ⟨by norm_num, le_refl 0,
    C3_limiter_honours_ceiling 44100 [2, 1 / 2] 0 (1 / 20) (by norm_num) (le_refl 0)⟩

/-- C10: each of the three stages returns its input unchanged whenever its
body raises an internal exception (for `apply_eq` a filter design error,
for `apply_compression` the zero-ratio division error; the saturation body
has no reachable failure in the model but the same catch structure). -/
theorem C10_stage_failure_is_noop (sr : ℕ) (a : NpAudio) (eq : EqSettings)
    (c : CompressionSettings) (s : SaturationSettings) :
    (∀ msg, apply_eqE sr a eq = .error msg → apply_eq sr a eq = a) ∧
    (∀ msg, apply_compressionE sr a c = .error msg → apply_compression sr a c = a) ∧
    (∀ msg, apply_saturationE a s = .error msg → apply_saturation a s = a) := by
  refine ⟨fun msg h => ?_, fun msg h => ?_, fun msg h => ?_⟩
  · unfold apply_eq
    rw [h]
  · unfold apply_compression
    rw [h]
  · unfold apply_saturation
    rw [h]

/-- C10, witness: a high-pass EQ band at 30 kHz exceeds the Nyquist
frequency of a 44.1 kHz engine, the filter design raises, and the stage
returns its input. -/
theorem C10_witness :
    apply_eqE 44100 (.oneD [1]) ⟨[⟨30000, 5, 1, "highpass"⟩]⟩
      = .error "ValueError: digital filter critical frequencies must be 0 < Wn < 1" ∧
    apply_eq 44100 (.oneD [1]) ⟨[⟨30000, 5, 1, "highpass"⟩]⟩ = .oneD [1] := by
  have hco : eq_band_coeffs 44100 30000 5 1 "highpass"
      = .error "ValueError: digital filter critical frequencies must be 0 < Wn < 1" := by
    simp only [eq_band_coeffs]
    rw [if_pos trivial, if_pos (Or.inr (by norm_num))]
  have hband : apply_eq_bandE 44100 (.oneD [1]) 30000 5 1 "highpass"
      = .error "ValueError: digital filter critical frequencies must be 0 < Wn < 1" := by
    unfold apply_eq_bandE
    rw [hco]
  have herr : apply_eqE 44100 (.oneD [1]) ⟨[⟨30000, 5, 1, "highpass"⟩]⟩
      = .error "ValueError: digital filter critical frequencies must be 0 < Wn < 1" := by
    show (if |(5 : ℝ)| > 0.1 then
        apply_eq_bandE 44100 (.oneD [1]) 30000 5 1 "highpass"
      else .ok (.oneD [1])) >>= (fun acc => List.foldlM _ acc []) = _
    rw [if_pos (by norm_num), hband]
    rfl
  refine ⟨herr, ?_⟩
  exact (C10_stage_failure_is_noop 44100 (.oneD [1]) ⟨[⟨30000, 5, 1, "highpass"⟩]⟩
    ⟨0, 1, 1, 1, 0, none⟩ ⟨1, "tape", 1⟩).1 _ herr

/-- EQ with an empty band list is the identity. -/
lemma apply_eq_nil (sr : ℕ) (a : NpAudio) : apply_eq sr a ⟨[]⟩ = a := rfl

/-- At ratio 1 the compressor reduces no gain, so a single positive sample
becomes `(x + 1e-10) · 10^(makeup/20)` (the `1e-10` dB-conversion guard is
reintroduced on the way back to linear). -/
lemma compression_ratio_one_single (sr : ℕ) (x thr att rel mg : ℝ)
    (hx : 0 < x) (hmg : mg ≠ 0) :
    apply_compression_channel sr [x] thr 1 att rel mg
      = [(x + 1 / 10 ^ 10) * (10 : ℝ) ^ (mg / 20)] := by
  unfold apply_compression_channel
  have h0 : (1 : ℝ) - 1 / 1 = 0 := by norm_num
  simp only [List.map_cons, List.map_nil, h0, mul_zero, ite_self]
  have henv : apply_envelope sr [(0 : ℝ)] att rel = [0] := rfl
  rw [henv]
  simp only [List.zipWith_cons_cons, List.zipWith_nil_right, List.zipWith_nil_left,
    sub_zero, Real.sign_of_pos hx]
  rw [if_pos hmg]
  simp only [List.map_cons, List.map_nil, one_mul]
  rw [show 20 * Real.logb 10 (|x| + 1 / 10 ^ 10) / 20
      = Real.logb 10 (|x| + 1 / 10 ^ 10) from by ring]
  rw [Real.rpow_logb (by norm_num) (by norm_num) (by positivity)]
  rw [abs_of_pos hx]

/-- One sample of tape saturation at drive 1, mix 1. -/
lemma tape_sat_sample (v : ℝ) (hv : 0 ≤ v) :
    apply_saturation_sample "tape" 1 1 v = v / (1 + v) := by
  unfold apply_saturation_sample saturation_wet tape_saturation
  rw [if_neg (by decide), if_pos rfl]
  simp only [mul_one]
  rw [abs_of_nonneg hv]
  ring

/-- Tape saturation of a stereo pair of equal one-sample channels. -/
lemma apply_saturation_tape_pair (v : ℝ) (hv : 0 ≤ v) :
    apply_saturation (.twoD [[v], [v]]) ⟨1, "tape", 1⟩
      = .twoD [[v / (1 + v)], [v / (1 + v)]] := by
  unfold apply_saturation apply_saturationE NpAudio.map
  simp only [List.map_cons, List.map_nil]
  rw [tape_sat_sample v hv]

/-- Stereo processing at width 1 leaves a two-channel array unchanged. -/
lemma apply_stereo_width_one_pair (a b : List ℝ) :
    apply_stereo_processing (.twoD [a, b]) ⟨1⟩ = .twoD [a, b] := by
  simp only [apply_stereo_processing]
  rw [if_neg (show ¬ ((1 : ℝ) ≠ 1) from fun h => h rfl)]

/-- The limiter on a single sample multiplies it by its initial gain (the
smoothing loop never runs). -/
lemma apply_limiting_channel_single (sr : ℕ) (v cl rel : ℝ) :
    apply_limiting_channel sr [v] cl rel = [v * limiter_gain cl v] := rfl

/-- Ratio-1 compression of a stereo pair of equal one-sample positive
channels with makeup gain 20 dB. -/
lemma apply_compression_pair (x : ℝ) (hx : 0 < x) :
    apply_compression 44100 (.twoD [[x], [x]]) ⟨0, 1, 3 / 1000, 1 / 10, 20, none⟩
      = .twoD [[(x + 1 / 10 ^ 10) * 10], [(x + 1 / 10 ^ 10) * 10]] := by
  have hok : apply_compressionE 44100 (.twoD [[x], [x]])
        ⟨0, 1, 3 / 1000, 1 / 10, 20, none⟩
      = .ok (.twoD [[(x + 1 / 10 ^ 10) * 10], [(x + 1 / 10 ^ 10) * 10]]) := by
    unfold apply_compressionE
    rw [if_neg (show ¬ ((1 : ℝ) = 0) by norm_num)]
    unfold perChannel
    simp only [List.map_cons, List.map_nil]
    rw [compression_ratio_one_single 44100 x 0 (3 / 1000) (1 / 10) 20 hx (by norm_num)]
    rw [show (10 : ℝ) ^ ((20 : ℝ) / 20) = 10 from by
      rw [show ((20 : ℝ) / 20) = 1 from by norm_num, Real.rpow_one]]
  unfold apply_compression
  rw [hok]

/-- C1, amended: `apply_mastering_chain` with all five sections present is
exactly the composition in the source order EQ, then Compression, then
Saturation, then Stereo, then Limiting. -/
theorem C1_chain_order (sr : ℕ) (a : NpAudio) (eq : EqSettings)
    (c : CompressionSettings) (s : SaturationSettings) (st : StereoSettings)
    (l : LimitingSettings) :
    apply_mastering_chain sr a ⟨some eq, some c, some s, some st, some l⟩
      = apply_limiting sr
          (apply_stereo_processing
            (apply_saturation (apply_compression sr (apply_eq sr a eq) c) s) st) l := rfl

/-- C1, counterexample: with an empty EQ, ratio-1 compression with +20 dB
makeup, full-wet tape saturation, width-1 stereo and a 0 dB ceiling, the
chain output on the unit stereo impulse differs from the
saturation-before-compression composition demanded by the claim. -/
theorem C1_counterexample :
    apply_mastering_chain 44100 (.twoD [[1], [1]])
        ⟨some ⟨[]⟩, some ⟨0, 1, 3 / 1000, 1 / 10, 20, none⟩,
         some ⟨1, "tape", 1⟩, some ⟨1⟩, some ⟨0, 1 / 20⟩⟩
      ≠ apply_limiting 44100
          (apply_stereo_processing
            (apply_compression 44100
              (apply_saturation
                (apply_eq 44100 (.twoD [[1], [1]]) ⟨[]⟩)
                ⟨1, "tape", 1⟩)
              ⟨0, 1, 3 / 1000, 1 / 10, 20, none⟩)
            ⟨1⟩)
          ⟨0, 1 / 20⟩ := by
  have hcl : (10 : ℝ) ^ ((0 : ℝ) / 20) = 1 := by
    rw [show ((0 : ℝ) / 20) = (0 : ℝ) from by norm_num, Real.rpow_zero]
  -- the value after ratio-1 compression of the unit sample
  have hu : ((1 : ℝ) + 1 / 10 ^ 10) * 10 = 10 + 1 / 10 ^ 9 := by norm_num
  -- left side: the chain applies compression before saturation
  have hL : apply_mastering_chain 44100 (.twoD [[1], [1]])
        ⟨some ⟨[]⟩, some ⟨0, 1, 3 / 1000, 1 / 10, 20, none⟩,
         some ⟨1, "tape", 1⟩, some ⟨1⟩, some ⟨0, 1 / 20⟩⟩
      = .twoD [[(10 + 1 / 10 ^ 9) / (1 + (10 + 1 / 10 ^ 9))],
               [(10 + 1 / 10 ^ 9) / (1 + (10 + 1 / 10 ^ 9))]] := by
    have h1 : apply_mastering_chain 44100 (.twoD [[1], [1]])
          ⟨some ⟨[]⟩, some ⟨0, 1, 3 / 1000, 1 / 10, 20, none⟩,
           some ⟨1, "tape", 1⟩, some ⟨1⟩, some ⟨0, 1 / 20⟩⟩
        = apply_limiting 44100
            (apply_stereo_processing
              (apply_saturation
                (apply_compression 44100
                  (apply_eq 44100 (.twoD [[1], [1]]) ⟨[]⟩)
                  ⟨0, 1, 3 / 1000, 1 / 10, 20, none⟩)
                ⟨1, "tape", 1⟩)
              ⟨1⟩)
            ⟨0, 1 / 20⟩ := rfl
    rw [h1, apply_eq_nil, apply_compression_pair 1 (by norm_num), hu]
    rw [apply_saturation_tape_pair _ (by norm_num)]
    rw [apply_stereo_width_one_pair]
    unfold apply_limiting
    unfold perChannel
    simp only [List.map_cons, List.map_nil, hcl, apply_limiting_channel_single]
    have hgain : limiter_gain 1 ((10 + 1 / 10 ^ 9) / (1 + (10 + 1 / 10 ^ 9))) = 1 := by
      unfold limiter_gain
      rw [if_neg]
      rw [abs_of_nonneg (by positivity), not_lt]
      rw [div_le_one (by norm_num)]
      norm_num
    rw [hgain, mul_one]
  -- right side: saturation first, then compression, then the 0 dB limiter
  have hR : apply_limiting 44100
        (apply_stereo_processing
          (apply_compression 44100
            (apply_saturation
              (apply_eq 44100 (.twoD [[1], [1]]) ⟨[]⟩)
              ⟨1, "tape", 1⟩)
            ⟨0, 1, 3 / 1000, 1 / 10, 20, none⟩)
          ⟨1⟩)
        ⟨0, 1 / 20⟩
      = .twoD [[1], [1]] := by
    rw [apply_eq_nil, apply_saturation_tape_pair 1 (by norm_num)]
    rw [show (1 : ℝ) / (1 + 1) = 1 / 2 from by norm_num]
    rw [apply_compression_pair (1 / 2) (by norm_num)]
    rw [show ((1 : ℝ) / 2 + 1 / 10 ^ 10) * 10 = 5 + 1 / 10 ^ 9 from by norm_num]
    rw [apply_stereo_width_one_pair]
    unfold apply_limiting
    unfold perChannel
    simp only [List.map_cons, List.map_nil, hcl, apply_limiting_channel_single]
    have habs : |(5 : ℝ) + 1 / 10 ^ 9| = 5 + 1 / 10 ^ 9 := abs_of_nonneg (by norm_num)
    have hgain : limiter_gain 1 (5 + 1 / 10 ^ 9) = 1 / (5 + 1 / 10 ^ 9) := by
      unfold limiter_gain
      rw [if_pos (by rw [habs]; norm_num), habs]
      rw [min_eq_right]
      rw [div_le_one (by norm_num)]
      norm_num
    rw [hgain]
    rw [mul_one_div, div_self (by norm_num : (5 : ℝ) + 1 / 10 ^ 9 ≠ 0)]
  rw [hL, hR]
  intro h
  have h2 : (10 + 1 / 10 ^ 9 : ℝ) / (1 + (10 + 1 / 10 ^ 9)) = 1 := by
    injection h with h1
    exact (List.cons.injEq _ _ _ _).mp ((List.cons.injEq _ _ _ _).mp h1).1 |>.1
  rw [div_eq_one_iff_eq (by norm_num : (1 : ℝ) + (10 + 1 / 10 ^ 9) ≠ 0)] at h2
  linarith

end AiMastering
